import Mathlib

/-!
# Verification of the aiogguf GGUF decoder

A shallow embedding of the aiogguf Rust crate (GGUF binary container
decoder) together with proofs about its behaviour.

Conventions of the embedding:
* Rust machine integers become `Nat` (for the unsigned kinds) or `Int`
  (for the signed kinds); wrapping casts are written with explicit `% 2^w`.
* Floating-point payloads decoded from the byte stream are stored as their
  raw little-endian bit patterns (`Nat`); no claim interprets the numeric
  value of a stored float, so this representation is bit-exact.
* Fallible Rust functions returning `Result<T, GgufError>` become
  `Except GgufError T`.
* Byte streams are `List Nat` (each entry a byte value `< 256`); reading
  consumes a prefix of the list.
-/

deriving instance DecidableEq for Except

/-- Error taxonomy of the crate (`src/error.rs`).  The `Io` variant of the
source wraps a `std::io::Error`; short reads surface through it, so it is
modelled as the payload-free constructor `io`.  The
`InvalidMetadataValueType` variant additionally carries a `found` field in
the source that is a Rust `Debug` rendering of the stored value; that
purely diagnostic string is not modelled. -/
inductive GgufError where
  | io : GgufError
  | invalidMagic (m : List Nat) : GgufError
  | unsupportedVersion (v : Nat) : GgufError
  | invalidValueType (v : Nat) : GgufError
  | invalidQuantizationType (v : Nat) : GgufError
  | metadataKeyNotFound (k : String) : GgufError
  | invalidMetadataValueType (key expected : String) : GgufError
  | invalidUtf8 : GgufError
  | unexpectedEof : GgufError
  | invalidTensorDimensions : GgufError
  | incompleteModelConfig (f : String) : GgufError
deriving DecidableEq, Repr

/-- The 13 GGUF value-type tags (`src/types.rs`, `GgufValueType`). -/
inductive GgufValueType where
  | uint8 | int8 | uint16 | int16 | uint32 | int32 | float32
  | bool | string | array | uint64 | int64 | float64
deriving DecidableEq, Repr

/-- `GgufValueType::try_from(u32)` (`src/types.rs` lines 29-50). -/
def GgufValueType.ofU32 (value : Nat) : Except GgufError GgufValueType :=
  match value with
  | 0 => .ok .uint8
  | 1 => .ok .int8
  | 2 => .ok .uint16
  | 3 => .ok .int16
  | 4 => .ok .uint32
  | 5 => .ok .int32
  | 6 => .ok .float32
  | 7 => .ok .bool
  | 8 => .ok .string
  | 9 => .ok .array
  | 10 => .ok .uint64
  | 11 => .ok .int64
  | 12 => .ok .float64
  | _ => .error (.invalidValueType value)

/-- The GGUF tagged value (`src/types.rs`, `GgufValue`).  Unsigned payloads
are `Nat`, signed payloads `Int`; float payloads keep their raw bit
patterns as `Nat` (see the module docstring). -/
inductive GgufValue where
  | uint8 (v : Nat)
  | int8 (v : Int)
  | uint16 (v : Nat)
  | int16 (v : Int)
  | uint32 (v : Nat)
  | int32 (v : Int)
  | float32 (bits : Nat)
  | bool (b : Bool)
  | string (s : String)
  | array (vs : List GgufValue)
  | uint64 (v : Nat)
  | int64 (v : Int)
  | float64 (bits : Nat)

/-- `GgufValue::as_u32` (`src/types.rs` lines 164-174): exact on the u32
variant, truncating (`as u32`, i.e. `% 2^32`) on the u64 variant, a
type-mismatch error on everything else. -/
def GgufValue.as_u32 : GgufValue → Except GgufError Nat
  | .uint32 v => .ok v
  | .uint64 v => .ok (v % 2 ^ 32)
  | _ => .error (.invalidMetadataValueType "unknown" "u32")

/-- `GgufValue::as_u64` (`src/types.rs` lines 176-186): exact on the u64
variant, widening on the u32 variant, a type-mismatch error otherwise. -/
def GgufValue.as_u64 : GgufValue → Except GgufError Nat
  | .uint64 v => .ok v
  | .uint32 v => .ok v
  | _ => .error (.invalidMetadataValueType "unknown" "u64")

/-- `GgufValue::as_string` (`src/types.rs` lines 188-197). -/
def GgufValue.as_string : GgufValue → Except GgufError String
  | .string v => .ok v
  | _ => .error (.invalidMetadataValueType "unknown" "string")

/-- `GgufValue::as_f32` (`src/types.rs` lines 199-208); the payload is the
raw f32 bit pattern. -/
def GgufValue.as_f32 : GgufValue → Except GgufError Nat
  | .float32 v => .ok v
  | _ => .error (.invalidMetadataValueType "unknown" "f32")

/-- The metadata store (`src/metadata.rs`, `GgufMetadata`).  The source
keeps a `HashMap<String, GgufValue>`; the map is modelled as an
association list queried with `List.lookup`. -/
structure GgufMetadata where
  data : List (String × GgufValue)

/-- `GgufMetadata::get` (`src/metadata.rs` lines 50-52). -/
def GgufMetadata.get (m : GgufMetadata) (key : String) : Option GgufValue :=
  m.data.lookup key

/-- `GgufMetadata::get_required` (`src/metadata.rs` lines 55-59). -/
def GgufMetadata.get_required (m : GgufMetadata) (key : String) :
    Except GgufError GgufValue :=
  match m.get key with
  | some v => .ok v
  | none => .error (.metadataKeyNotFound key)

/-- `GgufMetadata::get_string` (`src/metadata.rs` lines 62-64). -/
def GgufMetadata.get_string (m : GgufMetadata) (key : String) :
    Except GgufError String :=
  (m.get_required key).bind GgufValue.as_string

/-- `GgufMetadata::get_string_opt` (`src/metadata.rs` lines 67-69). -/
def GgufMetadata.get_string_opt (m : GgufMetadata) (key : String) :
    Option String :=
  (m.get key).bind (fun v => v.as_string.toOption)

/-- `GgufMetadata::get_u32` (`src/metadata.rs` lines 72-74). -/
def GgufMetadata.get_u32 (m : GgufMetadata) (key : String) :
    Except GgufError Nat :=
  (m.get_required key).bind GgufValue.as_u32

/-- `GgufMetadata::get_u32_opt` (`src/metadata.rs` lines 77-79). -/
def GgufMetadata.get_u32_opt (m : GgufMetadata) (key : String) : Option Nat :=
  (m.get key).bind (fun v => v.as_u32.toOption)

/-- `GgufMetadata::get_u64` (`src/metadata.rs` lines 82-84). -/
def GgufMetadata.get_u64 (m : GgufMetadata) (key : String) :
    Except GgufError Nat :=
  (m.get_required key).bind GgufValue.as_u64

/-- `GgufMetadata::get_u64_opt` (`src/metadata.rs` lines 87-89). -/
def GgufMetadata.get_u64_opt (m : GgufMetadata) (key : String) : Option Nat :=
  (m.get key).bind (fun v => v.as_u64.toOption)

/-- `GgufMetadata::get_f32_opt` (`src/metadata.rs` lines 97-99). -/
def GgufMetadata.get_f32_opt (m : GgufMetadata) (key : String) : Option Nat :=
  (m.get key).bind (fun v => v.as_f32.toOption)

/-- `ModelConfig` (`src/metadata.rs` lines 103-138).  Field types follow the
source: `u64` and `u32` fields are `Nat`, `f32` fields keep bit patterns. -/
structure ModelConfig where
  architecture : String
  vocab_size : Nat
  context_length : Nat
  block_count : Nat
  embedding_length : Nat
  feed_forward_length : Nat
  attention_head_count : Nat
  attention_head_count_kv : Option Nat
  attention_layer_norm_rms_epsilon : Option Nat
  rope_dimension_count : Option Nat
  rope_freq_base : Option Nat
  rope_scaling_type : Option String
  tokenizer_ggml_model : Option String
  tokenizer_ggml_tokens : Option (List String)
  tokenizer_ggml_scores : Option (List Nat)
  tokenizer_ggml_token_type : Option (List Nat)
  tokenizer_chat_template : Option String
  general_name : Option String
  general_description : Option String
  general_license : Option String

/-- The `vocab_size` fallback chain of `ModelConfig::from_metadata`
(`src/metadata.rs` lines 150-159): `general.vocab_size`, else
`<archPfx>vocab_size`, else the length of the array under
`tokenizer.ggml.tokens`, else a config error naming `vocab_size`.
The source's `or_else` combinators discard the earlier error, which the
nested matches reproduce. -/
def resolveVocabSize (m : GgufMetadata) (archPfx : String) :
    Except GgufError Nat :=
  match m.get_u64 "general.vocab_size" with
  | .ok v => .ok v
  | .error _ =>
    match m.get_u64 (archPfx ++ "vocab_size") with
    | .ok v => .ok v
    | .error _ =>
      match m.get "tokenizer.ggml.tokens" with
      | some (.array tokens) => .ok tokens.length
      | _ => .error (.incompleteModelConfig "vocab_size")

/-- The `context_length` fallback chain of `ModelConfig::from_metadata`
(`src/metadata.rs` lines 161-163): `general.context_length`, else
`<archPfx>context_length`, else a config error naming `context_length`. -/
def resolveContextLength (m : GgufMetadata) (archPfx : String) :
    Except GgufError Nat :=
  match m.get_u64 "general.context_length" with
  | .ok v => .ok v
  | .error _ =>
    match m.get_u64 (archPfx ++ "context_length") with
    | .ok v => .ok v
    | .error _ => .error (.incompleteModelConfig "context_length")

/-- `ModelConfig.from_metadata` continued: the record built once every
required field has resolved (`src/metadata.rs` lines 177-221). -/
def ModelConfig.assemble (m : GgufMetadata) (architecture : String)
    (vocab_size context_length block_count embedding_length
      feed_forward_length attention_head_count : Nat) : ModelConfig :=
  let archPfx := architecture ++ "."
  let attention_head_count_kv :=
    m.get_u32_opt (archPfx ++ "attention.head_count_kv")
  let attention_layer_norm_rms_epsilon :=
    m.get_f32_opt (archPfx ++ "attention.layer_norm_rms_epsilon")
  let rope_dimension_count := m.get_u32_opt (archPfx ++ "rope.dimension_count")
  let rope_freq_base := m.get_f32_opt (archPfx ++ "rope.freq_base")
  let rope_scaling_type := m.get_string_opt (archPfx ++ "rope.scaling.type")
  let tokenizer_ggml_model := m.get_string_opt "tokenizer.ggml.model"
  let tokenizer_chat_template := m.get_string_opt "tokenizer.chat_template"
  let general_name := m.get_string_opt "general.name"
  let general_description := m.get_string_opt "general.description"
  let general_license := m.get_string_opt "general.license"
  {
    architecture := architecture
    vocab_size := vocab_size
    context_length := context_length
    block_count := block_count
    embedding_length := embedding_length
    feed_forward_length := feed_forward_length
    attention_head_count := attention_head_count
    attention_head_count_kv := attention_head_count_kv
    attention_layer_norm_rms_epsilon := attention_layer_norm_rms_epsilon
    rope_dimension_count := rope_dimension_count
    rope_freq_base := rope_freq_base
    rope_scaling_type := rope_scaling_type
    tokenizer_ggml_model := tokenizer_ggml_model
    tokenizer_ggml_tokens := none
    tokenizer_ggml_scores := none
    tokenizer_ggml_token_type := none
    tokenizer_chat_template := tokenizer_chat_template
    general_name := general_name
    general_description := general_description
    general_license := general_license }

/-- `ModelConfig::from_metadata` (`src/metadata.rs` lines 142-222).  Each
`?` / `map_err(...)?` step of the source is rendered as a match on the
fallible lookup; the optional fields are filled in by
`ModelConfig.assemble`. -/
def ModelConfig.from_metadata (m : GgufMetadata) :
    Except GgufError ModelConfig :=
  match m.get_string "general.architecture" with
  | .error e => .error e
  | .ok architecture =>
    let archPfx := architecture ++ "."
    match resolveVocabSize m archPfx with
    | .error e => .error e
    | .ok vocab_size =>
      match resolveContextLength m archPfx with
      | .error e => .error e
      | .ok context_length =>
        match m.get_u32 (archPfx ++ "block_count") with
        | .error _ => .error (.incompleteModelConfig "block_count")
        | .ok block_count =>
          match m.get_u32 (archPfx ++ "embedding_length") with
          | .error _ => .error (.incompleteModelConfig "embedding_length")
          | .ok embedding_length =>
            match m.get_u32 (archPfx ++ "feed_forward_length") with
            | .error _ =>
              .error (.incompleteModelConfig "feed_forward_length")
            | .ok feed_forward_length =>
              match m.get_u32 (archPfx ++ "attention.head_count") with
              | .error _ =>
                .error (.incompleteModelConfig "attention.head_count")
              | .ok attention_head_count =>
                .ok (ModelConfig.assemble m architecture vocab_size
                  context_length block_count embedding_length
                  feed_forward_length attention_head_count)

/-- Little-endian interpretation of a byte list: the first byte is the
least significant.  This is `uNN::from_le_bytes` for each fixed width. -/
def leBytes (bs : List Nat) : Nat :=
  bs.foldr (fun b acc => b + 256 * acc) 0

/-- Two's-complement reinterpretation of a `w`-bit unsigned value, i.e.
`iNN::from_le_bytes` composed with `leBytes`. -/
def asInt (w : Nat) (n : Nat) : Int :=
  if n < 2 ^ (w - 1) then (n : Int) else (n : Int) - 2 ^ w

/-- `GGUF_MAGIC` (`src/header.rs` line 8): the bytes of ASCII `GGUF`. -/
def ggufMagic : List Nat := [71, 71, 85, 70]

/-- `GgufHeader` (`src/header.rs` lines 13-18).  `magic` is the 4-byte
array, kept as a list of bytes. -/
structure GgufHeader where
  magic : List Nat
  version : Nat
  tensor_count : Nat
  metadata_kv_count : Nat
deriving DecidableEq, Repr

/-- `GgufHeader::read` (`src/header.rs` lines 22-56), modelled over a byte
list.  The result pairs the outcome with the number of bytes consumed, so
that "stops before reading the version" is observable.  A `read_exact`
that cannot be satisfied fails with the I/O error and consumes nothing
(the count at that point). -/
def GgufHeader.readRun (bytes : List Nat) :
    Except GgufError GgufHeader × Nat :=
  if bytes.length < 4 then (.error .io, 0)
  else
    let magic := bytes.take 4
    if magic ≠ ggufMagic then (.error (.invalidMagic magic), 4)
    else if bytes.length < 8 then (.error .io, 4)
    else
      let version := leBytes ((bytes.drop 4).take 4)
      if version ≠ 3 then (.error (.unsupportedVersion version), 8)
      else if bytes.length < 16 then (.error .io, 8)
      else
        let tensor_count := leBytes ((bytes.drop 8).take 8)
        if bytes.length < 24 then (.error .io, 16)
        else
          let metadata_kv_count := leBytes ((bytes.drop 16).take 8)
          (.ok ⟨magic, version, tensor_count, metadata_kv_count⟩, 24)

/-- `GgufHeader::is_valid` (`src/header.rs` lines 64-66). -/
def GgufHeader.is_valid (h : GgufHeader) : Bool :=
  h.magic = ggufMagic ∧ h.version = 3

/-- `read_exact` into an `n`-byte buffer: take `n` bytes off the front of
the stream, or fail with the I/O error on a short read. -/
def readBytes (n : Nat) (bs : List Nat) :
    Except GgufError (List Nat × List Nat) :=
  if n ≤ bs.length then .ok (bs.take n, bs.drop n) else .error .io

/-- Is `b` a UTF-8 continuation byte (`0x80..0xBF`)? -/
def isCont (b : Nat) : Prop := 0x80 ≤ b ∧ b < 0xC0

instance (b : Nat) : Decidable (isCont b) := by
  unfold isCont; infer_instance

/-- Strict UTF-8 decoding of a byte list, as performed by Rust's
`String::from_utf8`: rejects truncated sequences, stray continuation
bytes, overlong encodings, surrogate code points and values above
`0x10FFFF`. -/
def utf8Decode : List Nat → Option (List Char)
  | [] => some []
  | b :: rest =>
    if b < 0x80 then
      (utf8Decode rest).map (fun cs => Char.ofNat b :: cs)
    else if b < 0xC2 then
      none
    else if b ≤ 0xDF then
      match rest with
      | c1 :: rest2 =>
        if isCont c1 then
          (utf8Decode rest2).map
            (fun cs => Char.ofNat ((b - 0xC0) * 64 + (c1 - 0x80)) :: cs)
        else none
      | _ => none
    else if b ≤ 0xEF then
      match rest with
      | c1 :: c2 :: rest3 =>
        if isCont c1 ∧ isCont c2 then
          let cp := (b - 0xE0) * 4096 + (c1 - 0x80) * 64 + (c2 - 0x80)
          if cp < 0x800 ∨ (0xD800 ≤ cp ∧ cp ≤ 0xDFFF) then none
          else (utf8Decode rest3).map (fun cs => Char.ofNat cp :: cs)
        else none
      | _ => none
    else if b ≤ 0xF4 then
      match rest with
      | c1 :: c2 :: c3 :: rest4 =>
        if isCont c1 ∧ isCont c2 ∧ isCont c3 then
          let cp := (b - 0xF0) * 262144 + (c1 - 0x80) * 4096 +
            (c2 - 0x80) * 64 + (c3 - 0x80)
          if cp < 0x10000 ∨ 0x10FFFF < cp then none
          else (utf8Decode rest4).map (fun cs => Char.ofNat cp :: cs)
        else none
      | _ => none
    else none

/-- The element loop of the array branch of `GgufValue::read`: decode
`len` elements in sequence with the element reader `rv`. -/
def readElemsGo (rv : List Nat → Except GgufError (GgufValue × List Nat)) :
    Nat → List Nat → Except GgufError (List GgufValue × List Nat)
  | 0, bs => .ok ([], bs)
  | len + 1, bs => do
    let (v, r) ← rv bs
    let (vs, r2) ← readElemsGo rv len r
    .ok (v :: vs, r2)

/-- `GgufValue::read` (`src/types.rs` lines 72-161) with an explicit fuel
parameter to justify termination of the recursive array case.  Every
branch of the source consumes at least one byte, so fuel exceeding the
stream length never runs out; `GgufValue.readV` below supplies it. -/
def readValueF : Nat → GgufValueType → List Nat →
    Except GgufError (GgufValue × List Nat)
  | 0, _, _ => .error .unexpectedEof
  | fuel + 1, t, bs =>
    match t with
    | .uint8 => do
      let (b, r) ← readBytes 1 bs
      .ok (.uint8 (leBytes b), r)
    | .int8 => do
      let (b, r) ← readBytes 1 bs
      .ok (.int8 (asInt 8 (leBytes b)), r)
    | .uint16 => do
      let (b, r) ← readBytes 2 bs
      .ok (.uint16 (leBytes b), r)
    | .int16 => do
      let (b, r) ← readBytes 2 bs
      .ok (.int16 (asInt 16 (leBytes b)), r)
    | .uint32 => do
      let (b, r) ← readBytes 4 bs
      .ok (.uint32 (leBytes b), r)
    | .int32 => do
      let (b, r) ← readBytes 4 bs
      .ok (.int32 (asInt 32 (leBytes b)), r)
    | .float32 => do
      let (b, r) ← readBytes 4 bs
      .ok (.float32 (leBytes b), r)
    | .bool => do
      let (b, r) ← readBytes 1 bs
      .ok (.bool (leBytes b != 0), r)
    | .string => do
      let (lb, r) ← readBytes 8 bs
      let (sb, r2) ← readBytes (leBytes lb) r
      match utf8Decode sb with
      | some cs => .ok (.string (String.mk cs), r2)
      | none => .error .invalidUtf8
    | .array => do
      let (tb, r) ← readBytes 4 bs
      let elemType ← GgufValueType.ofU32 (leBytes tb)
      let (lb, r2) ← readBytes 8 r
      let (elems, r3) ← readElemsGo (readValueF fuel elemType) (leBytes lb) r2
      .ok (.array elems, r3)
    | .uint64 => do
      let (b, r) ← readBytes 8 bs
      .ok (.uint64 (leBytes b), r)
    | .int64 => do
      let (b, r) ← readBytes 8 bs
      .ok (.int64 (asInt 64 (leBytes b)), r)
    | .float64 => do
      let (b, r) ← readBytes 8 bs
      .ok (.float64 (leBytes b), r)

/-- `GgufValue::read` at the top level: the fuel is one more than the
stream length, which suffices because every recursive call consumes at
least one byte. -/
def GgufValue.readV (t : GgufValueType) (bs : List Nat) :
    Except GgufError (GgufValue × List Nat) :=
  readValueF (bs.length + 1) t bs

/-- The 29 quantization codes (`src/tensor.rs`, `QuantizationType`). -/
inductive QuantizationType where
  | f32 | f16 | q4_0 | q4_1 | q5_0 | q5_1 | q8_0 | q8_1
  | q2_K | q3_K | q4_K | q5_K | q6_K | q8_K
  | iq2_XXS | iq2_XS | iq3_XXS | iq1_S | iq4_NL | iq3_S | iq2_S | iq4_XS
  | i8 | i16 | i32 | i64 | f64 | iq1_M
deriving DecidableEq, Repr

/-- The numeric discriminant assigned to each variant by the `#[repr(u32)]`
declaration of `QuantizationType` (`src/tensor.rs` lines 12-41); the
derived `Ord` of the source compares exactly these values. -/
def QuantizationType.code : QuantizationType → Nat
  | .f32 => 0
  | .f16 => 1
  | .q4_0 => 2
  | .q4_1 => 3
  | .q5_0 => 6
  | .q5_1 => 7
  | .q8_0 => 8
  | .q8_1 => 9
  | .q2_K => 10
  | .q3_K => 11
  | .q4_K => 12
  | .q5_K => 13
  | .q6_K => 14
  | .q8_K => 15
  | .iq2_XXS => 16
  | .iq2_XS => 17
  | .iq3_XXS => 18
  | .iq1_S => 19
  | .iq4_NL => 20
  | .iq3_S => 21
  | .iq2_S => 22
  | .iq4_XS => 23
  | .i8 => 24
  | .i16 => 25
  | .i32 => 26
  | .i64 => 27
  | .f64 => 28
  | .iq1_M => 29

/-- `QuantizationType::try_from(u32)` (`src/tensor.rs` lines 115-151):
codes 4 and 5 are intentionally absent, everything above 29 is unknown. -/
def QuantizationType.tryFrom (value : Nat) : Except GgufError QuantizationType :=
  match value with
  | 0 => .ok .f32
  | 1 => .ok .f16
  | 2 => .ok .q4_0
  | 3 => .ok .q4_1
  | 6 => .ok .q5_0
  | 7 => .ok .q5_1
  | 8 => .ok .q8_0
  | 9 => .ok .q8_1
  | 10 => .ok .q2_K
  | 11 => .ok .q3_K
  | 12 => .ok .q4_K
  | 13 => .ok .q5_K
  | 14 => .ok .q6_K
  | 15 => .ok .q8_K
  | 16 => .ok .iq2_XXS
  | 17 => .ok .iq2_XS
  | 18 => .ok .iq3_XXS
  | 19 => .ok .iq1_S
  | 20 => .ok .iq4_NL
  | 21 => .ok .iq3_S
  | 22 => .ok .iq2_S
  | 23 => .ok .iq4_XS
  | 24 => .ok .i8
  | 25 => .ok .i16
  | 26 => .ok .i32
  | 27 => .ok .i64
  | 28 => .ok .f64
  | 29 => .ok .iq1_M
  | _ => .error (.invalidQuantizationType value)

/-- `QuantizationType::is_quantized` (`src/tensor.rs` lines 45-47). -/
def QuantizationType.is_quantized (q : QuantizationType) : Bool :=
  match q with
  | .f32 | .f16 | .f64 => false
  | _ => true

/-- `QuantizationType::bits_per_weight` (`src/tensor.rs` lines 50-78).
The source returns an `f32`; every table entry is a multiple of `1/16`
and hence exactly representable, so the rational value is the exact
float. -/
def QuantizationType.bits_per_weight : QuantizationType → ℚ
  | .f32 => 32
  | .f16 => 16
  | .f64 => 64
  | .q4_0 | .q4_1 => 4.5
  | .q5_0 | .q5_1 => 5.5
  | .q8_0 | .q8_1 => 8.5
  | .q2_K => 2.5625
  | .q3_K => 3.4375
  | .q4_K => 4.5
  | .q5_K => 5.5
  | .q6_K => 6.5625
  | .q8_K => 8.5
  | .iq2_XXS => 2.0625
  | .iq2_XS => 2.3125
  | .iq3_XXS => 3.0625
  | .iq1_S => 1.5625
  | .iq4_NL => 4.5
  | .iq3_S => 3.4375
  | .iq2_S => 2.5
  | .iq4_XS => 4.25
  | .i8 => 8
  | .i16 => 16
  | .i32 => 32
  | .i64 => 64
  | .iq1_M => 1.75

/-- `16 * bits_per_weight` as a natural number: the exact integer
significand of every table entry at denominator 16.  Used to carry out
the `f64` size computation over integers. -/
def QuantizationType.bpw16 : QuantizationType → Nat
  | .f32 => 512
  | .f16 => 256
  | .f64 => 1024
  | .q4_0 | .q4_1 => 72
  | .q5_0 | .q5_1 => 88
  | .q8_0 | .q8_1 => 136
  | .q2_K => 41
  | .q3_K => 55
  | .q4_K => 72
  | .q5_K => 88
  | .q6_K => 105
  | .q8_K => 136
  | .iq2_XXS => 33
  | .iq2_XS => 37
  | .iq3_XXS => 49
  | .iq1_S => 25
  | .iq4_NL => 72
  | .iq3_S => 55
  | .iq2_S => 40
  | .iq4_XS => 68
  | .i8 => 128
  | .i16 => 256
  | .i32 => 512
  | .i64 => 1024
  | .iq1_M => 28

/-- IEEE-754 double-precision rounding of a nonnegative integer: round to
53 significant bits, ties to even.  `Nat.findGreatest` recovers the
excess bit count, so the definition is structurally computable. -/
def rnd53 (k : Nat) : Nat :=
  if k < 2 ^ 53 then k
  else
    let t := Nat.findGreatest (fun t => 2 ^ (52 + t) ≤ k) 64
    let q := k / 2 ^ t
    let r := k % 2 ^ t
    let half := 2 ^ (t - 1)
    if half < r ∨ (r = half ∧ q % 2 = 1) then (q + 1) * 2 ^ t else q * 2 ^ t

/-- `TensorInfo` (`src/tensor.rs` lines 155-160). -/
structure TensorInfo where
  name : String
  dimensions : List Nat
  quantization_type : QuantizationType
  offset : Nat

/-- `TensorInfo::size_bytes` (`src/tensor.rs` lines 224-234).  The source
computes `((element_count as f64 * bits_per_weight as f64) / 8.0).ceil()
as u64`.  The `u64` product of the dimensions wraps at `2^64`; each `f64`
conversion and the multiplication round to 53 significant bits (`rnd53`);
division by `8.0` and `ceil` are then exact, and the final `as u64` cast
saturates.  Writing `p = 16 * bits_per_weight ∈ ℕ`, the computed value is
`⌈rnd53(rnd53(n) * p) / 128⌉` clamped to `u64`. -/
def TensorInfo.size_bytes (t : TensorInfo) : Nat :=
  if t.dimensions = [] then 0
  else
    let n := (t.dimensions.foldl (· * ·) 1) % 2 ^ 64
    min ((rnd53 (rnd53 n * t.quantization_type.bpw16) + 127) / 128)
      (2 ^ 64 - 1)

/-- First index at which `pat` occurs as a contiguous sublist of `hay`;
this is Rust's `str::find` for ASCII needles (UTF-8 is self-synchronising,
so byte positions and the positions in this character-level model identify
the same occurrences). -/
def findSub (hay pat : List Char) : Option Nat :=
  match hay with
  | [] => if pat = [] then some 0 else none
  | _ :: t => if pat.isPrefixOf hay then some 0 else (findSub t pat).map (· + 1)

/-- Rust's `str::parse::<u32>`: an optional leading `+`, then one or more
decimal digits, value below `2^32`; anything else is an error.  The
overflow check is equivalent to checking the final value because the
accumulator grows monotonically. -/
def parseU32 (cs : List Char) : Option Nat :=
  let ds := match cs with
    | '+' :: rest => rest
    | _ => cs
  if ds = [] then none
  else if ds.all (·.isDigit) then
    let v := ds.foldl (fun a c => a * 10 + (c.toNat - 48)) 0
    if v < 2 ^ 32 then some v else none
  else none

/-- One branch of `TensorInfo::layer_number` (`src/tensor.rs`): scan for
`pat` (`"layers."` or `"blocks."`), then take the characters up to the
next `'.'` and parse them as a `u32`. -/
def layerTry (cs pat : List Char) : Option Nat :=
  match findSub cs pat with
  | none => none
  | some i =>
    let s := cs.drop (i + 7)
    match findSub s ['.'] with
    | none => none
    | some d => parseU32 (s.take d)

/-- `TensorInfo::layer_number` (`src/tensor.rs` lines 255-276): try the
`layers.` pattern first, then `blocks.`; both patterns have length 7
(the source hard-codes the offset 7). -/
def TensorInfo.layer_number (t : TensorInfo) : Option Nat :=
  match layerTry t.name.data ['l', 'a', 'y', 'e', 'r', 's', '.'] with
  | some n => some n
  | none => layerTry t.name.data ['b', 'l', 'o', 'c', 'k', 's', '.']

/-- `TensorInfo::is_weight_tensor` (`src/tensor.rs` lines 245-252). -/
def TensorInfo.is_weight_tensor (t : TensorInfo) : Bool :=
  let cs := t.name.data
  (findSub cs ['w', 'e', 'i', 'g', 'h', 't']).isSome ||
  (findSub cs ['e', 'm', 'b', 'e', 'd']).isSome ||
  (findSub cs ['n', 'o', 'r', 'm']).isSome ||
  (findSub cs ['a', 't', 't', 'n']).isSome ||
  (findSub cs ['f', 'f', 'n']).isSome ||
  (findSub cs ['m', 'l', 'p']).isSome

/-- `GgufFile` (`src/lib.rs` lines 30-34). -/
structure GgufFile where
  header : GgufHeader
  metadata : GgufMetadata
  tensors : List TensorInfo

/-- Rust's `Vec::dedup`: remove consecutive equal elements.  (When the
head equals its successor the head is dropped; the two are equal, so this
agrees with the source keeping the first of each run.) -/
def dedupConsec {α : Type} [DecidableEq α] : List α → List α
  | [] => []
  | [a] => [a]
  | a :: b :: rest =>
    if a = b then dedupConsec (b :: rest) else a :: dedupConsec (b :: rest)

/-- `GgufFile::quantization_types` (`src/lib.rs` lines 78-86): collect the
per-tensor codes, `sort` and `dedup`.  The source's stable `sort` uses the
derived `Ord`, which compares discriminants (`QuantizationType.code`);
since that order is antisymmetric and ties are identical elements, the
sorted list is the unique `code`-sorted permutation, which
`List.insertionSort` also produces. -/
def GgufFile.quantization_types (f : GgufFile) : List QuantizationType :=
  dedupConsec
    (List.insertionSort (fun a b => a.code ≤ b.code)
      (f.tensors.map (·.quantization_type)))

/-- `GgufFile::is_quantized` (`src/lib.rs` lines 73-75). -/
def GgufFile.is_quantized (f : GgufFile) : Bool :=
  f.tensors.any (fun t => t.quantization_type.is_quantized)

/-- `GgufFile::total_size` (`src/lib.rs` lines 68-70); the `u64` sum of
the per-tensor sizes (overflow of the sum itself is not modelled). -/
def GgufFile.total_size (f : GgufFile) : Nat :=
  (f.tensors.map (·.size_bytes)).sum

/-! ## Helper lemmas -/

/-- `tryFrom` is a right inverse of `code`. -/
theorem QuantizationType.tryFrom_code (q : QuantizationType) :
    QuantizationType.tryFrom q.code = .ok q := by
  cases q <;> rfl

/-- Distinct quantization variants have distinct discriminants. -/
theorem QuantizationType.code_injective :
    Function.Injective QuantizationType.code := by
  intro a b h
  have ha := QuantizationType.tryFrom_code a
  rw [h, QuantizationType.tryFrom_code b] at ha
  injection ha with h2
  exact h2.symm

/-! ## C2: u32 and u64 accessor coercions -/

/-- C2: the u32 accessor returns a stored u64 reduced mod `2^32` (in
particular `4294967296 ↦ 0`) and a stored u32 exactly; the u64 accessor
returns a stored u64 exactly and widens a stored u32; every other stored
variant makes both accessors fail with the type-mismatch error; the
metadata accessors `get_u32`/`get_u64` apply exactly these conversions to
the stored value. -/
theorem as_u32_as_u64_coercion :
    (∀ n, GgufValue.as_u32 (.uint64 n) = .ok (n % 2 ^ 32)) ∧
    GgufValue.as_u32 (.uint64 4294967296) = .ok 0 ∧
    (∀ n, GgufValue.as_u32 (.uint32 n) = .ok n) ∧
    (∀ n, GgufValue.as_u64 (.uint64 n) = .ok n) ∧
    (∀ n, GgufValue.as_u64 (.uint32 n) = .ok n) ∧
    (∀ v : GgufValue, (∀ n, v ≠ .uint32 n) → (∀ n, v ≠ .uint64 n) →
      v.as_u32 = .error (.invalidMetadataValueType "unknown" "u32") ∧
      v.as_u64 = .error (.invalidMetadataValueType "unknown" "u64")) ∧
    (∀ (m : GgufMetadata) (k : String) (v : GgufValue), m.get k = some v →
      m.get_u32 k = v.as_u32 ∧ m.get_u64 k = v.as_u64) := by
  refine ⟨fun n => rfl, rfl, fun n => rfl, fun n => rfl, fun n => rfl, ?_, ?_⟩
  · intro v h32 h64
    cases v <;>
      first
      | exact ⟨rfl, rfl⟩
      | exact absurd rfl (h32 _)
      | exact absurd rfl (h64 _)
  · intro m k v h
    constructor <;>
      simp [GgufMetadata.get_u32, GgufMetadata.get_u64,
        GgufMetadata.get_required, h, Except.bind]

/-- Instantiation of `as_u32_as_u64_coercion` at concrete inputs. -/
theorem as_u32_as_u64_coercion_witness :
    (GgufValue.as_u32 (.string "x") =
      .error (.invalidMetadataValueType "unknown" "u32") ∧
     GgufValue.as_u64 (.string "x") =
      .error (.invalidMetadataValueType "unknown" "u64")) ∧
    GgufMetadata.get_u32 ⟨[("k", .uint64 4294967296)]⟩ "k" =
      GgufValue.as_u32 (.uint64 4294967296) :=
  ⟨as_u32_as_u64_coercion.2.2.2.2.2.1 (.string "x")
      (fun _ h => GgufValue.noConfusion h) (fun _ h => GgufValue.noConfusion h),
   (as_u32_as_u64_coercion.2.2.2.2.2.2 ⟨[("k", .uint64 4294967296)]⟩ "k"
      (.uint64 4294967296) rfl).1⟩

/-! ## C5: quantization code conversion -/

/-- C5 (amended: the closed success set `{0,1,2,3} ∪ {6,…,29}` has 28
elements, not 29): `QuantizationType::try_from` succeeds exactly on the
codes `{0,1,2,3,6,…,29}` and fails with a format error carrying the raw
code on every other u32; codes 4, 5 and 30 fail carrying that code, and
codes 0 and 29 succeed. -/
theorem tryFrom_characterization : ∀ n : Nat, n < 2 ^ 32 →
    (((n ≤ 29 ∧ n ≠ 4 ∧ n ≠ 5) ↔ ∃ q, QuantizationType.tryFrom n = .ok q) ∧
     (¬(n ≤ 29 ∧ n ≠ 4 ∧ n ≠ 5) →
       QuantizationType.tryFrom n = .error (.invalidQuantizationType n))) ∧
    QuantizationType.tryFrom 4 = .error (.invalidQuantizationType 4) ∧
    QuantizationType.tryFrom 5 = .error (.invalidQuantizationType 5) ∧
    QuantizationType.tryFrom 30 = .error (.invalidQuantizationType 30) ∧
    (∃ q, QuantizationType.tryFrom 0 = .ok q) ∧
    (∃ q, QuantizationType.tryFrom 29 = .ok q) := by
  intro n _
  refine ⟨⟨?_, ?_⟩, rfl, rfl, rfl, ⟨.f32, rfl⟩, ⟨.iq1_M, rfl⟩⟩
  · rcases Nat.lt_or_ge n 30 with h | h
    · interval_cases n <;> simp [QuantizationType.tryFrom]
    · obtain ⟨m, rfl⟩ := Nat.exists_eq_add_of_le' h
      have he : QuantizationType.tryFrom (m + 30) =
          .error (.invalidQuantizationType (m + 30)) := rfl
      rw [he]
      simp only [iff_iff_implies_and_implies]
      constructor
      · rintro ⟨h1, -, -⟩; omega
      · rintro ⟨q, hq⟩; cases hq
  · intro hn
    rcases Nat.lt_or_ge n 30 with h | h
    · interval_cases n <;> simp_all [QuantizationType.tryFrom]
    · obtain ⟨m, rfl⟩ := Nat.exists_eq_add_of_le' h
      rfl

/-- Instantiation of `tryFrom_characterization` at the concrete code 30. -/
theorem tryFrom_characterization_witness :
    QuantizationType.tryFrom 30 = .error (.invalidQuantizationType 30) :=
  ((tryFrom_characterization 30 (by norm_num)).1.2 (by norm_num))

/-- The claim's cardinality figure is off by one: the set of u32 codes
accepted by `QuantizationType::try_from` has exactly 28 elements (the
codes `{0,1,2,3,6,…,29}`), not 29. -/
theorem tryFrom_card_28 :
    ((List.range 30).filter
        (fun n => (QuantizationType.tryFrom n).toOption.isSome)).length = 28 ∧
    ((List.range 30).filter
        (fun n => (QuantizationType.tryFrom n).toOption.isSome)).length ≠ 29 ∧
    (QuantizationType.tryFrom 30).toOption.isSome = false ∧
    (QuantizationType.tryFrom 4).toOption.isSome = false ∧
    (QuantizationType.tryFrom 5).toOption.isSome = false := by
  refine ⟨by decide, by decide, rfl, rfl, rfl⟩

/-! ## C3 and C9: header reading -/

/-- C3 (amended: the full header is 24 bytes — 4 magic + 4 version + 8 + 8
counts — so success needs 24 bytes available, not 20): header reading
fails with a format error carrying the exact 4 magic bytes received
whenever they differ from ASCII `GGUF`, having consumed only those 4
bytes; with magic `GGUF` it fails with a format error naming the version
whenever the version is not 3; with magic `GGUF`, version 3 and 24 bytes
available it succeeds, returning the two little-endian u64 counts. -/
theorem header_read_characterization :
    (∀ bytes : List Nat, 4 ≤ bytes.length → bytes.take 4 ≠ ggufMagic →
      GgufHeader.readRun bytes = (.error (.invalidMagic (bytes.take 4)), 4)) ∧
    (∀ bytes : List Nat, 8 ≤ bytes.length → bytes.take 4 = ggufMagic →
      leBytes ((bytes.drop 4).take 4) ≠ 3 →
      GgufHeader.readRun bytes =
        (.error (.unsupportedVersion (leBytes ((bytes.drop 4).take 4))), 8)) ∧
    (∀ bytes : List Nat, 24 ≤ bytes.length → bytes.take 4 = ggufMagic →
      leBytes ((bytes.drop 4).take 4) = 3 →
      GgufHeader.readRun bytes =
        (.ok ⟨ggufMagic, 3, leBytes ((bytes.drop 8).take 8),
          leBytes ((bytes.drop 16).take 8)⟩, 24)) := by
  refine ⟨?_, ?_, ?_⟩
  · intro bytes h4 hm
    simp only [GgufHeader.readRun]
    rw [if_neg (by omega), if_pos hm]
  · intro bytes h8 hm hv
    simp only [GgufHeader.readRun]
    rw [if_neg (by omega), if_neg (by simp [hm]), if_neg (by omega),
      if_pos hv]
  · intro bytes h24 hm hv
    simp only [GgufHeader.readRun]
    rw [if_neg (by omega), if_neg (by simp [hm]), if_neg (by omega),
      if_neg (by simp [hv]), if_neg (by omega), if_neg (by omega)]
    simp [hm, hv]

/-- Instantiation of `header_read_characterization` at concrete byte
streams: a bad-magic stream and a complete valid 24-byte stream. -/
theorem header_read_characterization_witness :
    GgufHeader.readRun [88, 71, 85, 70] =
      (.error (.invalidMagic ([88, 71, 85, 70].take 4)), 4) ∧
    GgufHeader.readRun ([71, 71, 85, 70] ++ [3, 0, 0, 0] ++
        [2, 0, 0, 0, 0, 0, 0, 0] ++ [5, 0, 0, 0, 0, 0, 0, 0]) =
      (.ok ⟨ggufMagic, 3,
        leBytes ((([71, 71, 85, 70] ++ [3, 0, 0, 0] ++
          [2, 0, 0, 0, 0, 0, 0, 0] ++ [5, 0, 0, 0, 0, 0, 0, 0]).drop 8).take 8),
        leBytes ((([71, 71, 85, 70] ++ [3, 0, 0, 0] ++
          [2, 0, 0, 0, 0, 0, 0, 0] ++ [5, 0, 0, 0, 0, 0, 0, 0]).drop 16).take 8)⟩,
       24) :=
  ⟨header_read_characterization.1 [88, 71, 85, 70] (by norm_num) (by decide),
   header_read_characterization.2.2 _ (by norm_num) (by decide) (by decide)⟩

/-- A 20-byte stream with magic `GGUF` and version 3.  The claim predicts
success with 20 bytes available, but the header needs 24 bytes. -/
def bytes20 : List Nat :=
  [71, 71, 85, 70, 3, 0, 0, 0, 0, 0, 0, 0, 0, 0, 0, 0, 0, 0, 0, 0]

/-- Counterexample to C3 as stated: a stream of exactly 20 bytes with
magic `GGUF` and version 3 does not succeed — the final 8-byte count
cannot be read, so the reader fails with the I/O error after consuming
16 bytes. -/
theorem header_read_20_bytes_fails :
    bytes20.length = 20 ∧ bytes20.take 4 = ggufMagic ∧
    leBytes ((bytes20.drop 4).take 4) = 3 ∧
    GgufHeader.readRun bytes20 = (.error .io, 16) :=
  ⟨rfl, rfl, rfl, rfl⟩

/-- C9: any header returned successfully by the reader satisfies
`is_valid` — its magic equals ASCII `GGUF` and its version equals 3. -/
theorem header_read_is_valid :
    ∀ (bytes : List Nat) (h : GgufHeader) (n : Nat),
      GgufHeader.readRun bytes = (.ok h, n) → h.is_valid = true := by
  intro bytes h n heq
  simp only [GgufHeader.readRun] at heq
  split at heq
  · simp at heq
  split at heq
  · simp at heq
  split at heq
  · simp at heq
  split at heq
  · simp at heq
  split at heq
  · simp at heq
  split at heq
  · simp at heq
  · rename_i hl4 hmagic hl8 hversion hl16 hl24
    simp only [Prod.mk.injEq, Except.ok.injEq] at heq
    obtain ⟨rfl, rfl⟩ := heq
    simp only [GgufHeader.is_valid, decide_eq_true_eq]
    exact ⟨not_not.mp hmagic, not_not.mp hversion⟩

/-- Instantiation of `header_read_is_valid` at a concrete valid stream. -/
theorem header_read_is_valid_witness :
    (GgufHeader.mk [71, 71, 85, 70] 3 2 5).is_valid = true :=
  header_read_is_valid
    ([71, 71, 85, 70] ++ [3, 0, 0, 0] ++
      [2, 0, 0, 0, 0, 0, 0, 0] ++ [5, 0, 0, 0, 0, 0, 0, 0])
    (GgufHeader.mk [71, 71, 85, 70] 3 2 5) 24 (by decide)

/-! ## C1 and C10: the vocab_size and context_length fallback chains -/

/-- C1: `from_metadata` resolves `vocab_size` by the ordered fallback
chain — the value of `general.vocab_size` when that lookup succeeds,
otherwise the value of `<architecture>.vocab_size`, otherwise the element
count of the array under `tokenizer.ggml.tokens` (an array of 32003
entries yields 32003), and when all three steps fail the extraction
returns the config error naming `vocab_size`.  The last two conjuncts tie
the extracted chain back to `from_metadata` itself. -/
theorem vocab_size_fallback_chain :
    (∀ (m : GgufMetadata) (pfx : String) (v : Nat),
      m.get_u64 "general.vocab_size" = .ok v →
      resolveVocabSize m pfx = .ok v) ∧
    (∀ (m : GgufMetadata) (pfx : String) (e : GgufError) (v : Nat),
      m.get_u64 "general.vocab_size" = .error e →
      m.get_u64 (pfx ++ "vocab_size") = .ok v →
      resolveVocabSize m pfx = .ok v) ∧
    (∀ (m : GgufMetadata) (pfx : String) (e1 e2 : GgufError)
        (tokens : List GgufValue),
      m.get_u64 "general.vocab_size" = .error e1 →
      m.get_u64 (pfx ++ "vocab_size") = .error e2 →
      m.get "tokenizer.ggml.tokens" = some (.array tokens) →
      resolveVocabSize m pfx = .ok tokens.length) ∧
    (∀ (m : GgufMetadata) (pfx : String) (e1 e2 : GgufError),
      m.get_u64 "general.vocab_size" = .error e1 →
      m.get_u64 (pfx ++ "vocab_size") = .error e2 →
      (∀ tokens, m.get "tokenizer.ggml.tokens" ≠ some (.array tokens)) →
      resolveVocabSize m pfx = .error (.incompleteModelConfig "vocab_size")) ∧
    resolveVocabSize
      ⟨[("tokenizer.ggml.tokens", .array (List.replicate 32003 (.string "x")))]⟩
      "llama." = .ok 32003 ∧
    (∀ (m : GgufMetadata) (cfg : ModelConfig),
      ModelConfig.from_metadata m = .ok cfg →
      m.get_string "general.architecture" = .ok cfg.architecture ∧
      resolveVocabSize m (cfg.architecture ++ ".") = .ok cfg.vocab_size) ∧
    (∀ (m : GgufMetadata) (arch : String) (e : GgufError),
      m.get_string "general.architecture" = .ok arch →
      resolveVocabSize m (arch ++ ".") = .error e →
      ModelConfig.from_metadata m = .error e) := by
  refine ⟨?_, ?_, ?_, ?_, ?_, ?_, ?_⟩
  · intro m pfx v h
    simp [resolveVocabSize, h]
  · intro m pfx e v h1 h2
    simp [resolveVocabSize, h1, h2]
  · intro m pfx e1 e2 tokens h1 h2 h3
    simp [resolveVocabSize, h1, h2, h3]
  · intro m pfx e1 e2 h1 h2 h3
    simp only [resolveVocabSize, h1, h2]
  · have h1 : GgufMetadata.get_u64
        ⟨[("tokenizer.ggml.tokens",
          .array (List.replicate 32003 (.string "x")))]⟩
        "general.vocab_size" = .error (.metadataKeyNotFound
          "general.vocab_size") := rfl
    have h2 : GgufMetadata.get_u64
        ⟨[("tokenizer.ggml.tokens",
          .array (List.replicate 32003 (.string "x")))]⟩
        ("llama." ++ "vocab_size") = .error (.metadataKeyNotFound
          "llama.vocab_size") := rfl
    have h3 : GgufMetadata.get
        ⟨[("tokenizer.ggml.tokens",
          .array (List.replicate 32003 (.string "x")))]⟩
        "tokenizer.ggml.tokens" =
        some (.array (List.replicate 32003 (.string "x"))) := rfl
    simp only [resolveVocabSize, h1, h2, h3]
    rw [List.length_replicate]
  · intro m cfg h
    unfold ModelConfig.from_metadata at h
    rcases harch : m.get_string "general.architecture" with e | arch <;>
      simp only [harch] at h
    · exact Except.noConfusion h
    rcases hv : resolveVocabSize m (arch ++ ".") with e | v <;>
      simp only [hv] at h
    · exact Except.noConfusion h
    rcases hc : resolveContextLength m (arch ++ ".") with e | c <;>
      simp only [hc] at h
    · exact Except.noConfusion h
    rcases hb : m.get_u32 (arch ++ "." ++ "block_count") with e | b <;>
      simp only [hb] at h
    · exact Except.noConfusion h
    rcases he : m.get_u32 (arch ++ "." ++ "embedding_length") with e | emb <;>
      simp only [he] at h
    · exact Except.noConfusion h
    rcases hf : m.get_u32 (arch ++ "." ++ "feed_forward_length")
        with e | ffn <;> simp only [hf] at h
    · exact Except.noConfusion h
    rcases hh : m.get_u32 (arch ++ "." ++ "attention.head_count")
        with e | heads <;> simp only [hh] at h
    · exact Except.noConfusion h
    simp only [Except.ok.injEq] at h
    subst h
    exact ⟨rfl, hv⟩
  · intro m arch e harch hres
    unfold ModelConfig.from_metadata
    simp only [harch, hres]

/-- Instantiation of `vocab_size_fallback_chain` at concrete stores: the
first chain step, and the error case carried end to end through
`from_metadata`. -/
theorem vocab_size_fallback_chain_witness :
    resolveVocabSize ⟨[("general.vocab_size", .uint64 32000)]⟩ "llama." =
      .ok 32000 ∧
    ModelConfig.from_metadata
      ⟨[("general.architecture", .string "llama")]⟩ =
      .error (.incompleteModelConfig "vocab_size") :=
  ⟨vocab_size_fallback_chain.1 ⟨[("general.vocab_size", .uint64 32000)]⟩
      "llama." 32000 rfl,
   vocab_size_fallback_chain.2.2.2.2.2.2
      ⟨[("general.architecture", .string "llama")]⟩ "llama"
      (.incompleteModelConfig "vocab_size") rfl rfl⟩

/-- C10: in the `vocab_size` and `context_length` fallback chains, a
fallback step is taken not only when the earlier key is absent but also
when it is present with a non-coercible variant: with a string stored
under the `general.*` key and an unsigned integer under the
architecture-prefixed key, resolution returns the later key's value
instead of failing with a type-mismatch error. -/
theorem fallback_on_type_mismatch :
    (∀ (m : GgufMetadata) (pfx s : String) (v : Nat),
      m.get "general.vocab_size" = some (.string s) →
      m.get_u64 (pfx ++ "vocab_size") = .ok v →
      resolveVocabSize m pfx = .ok v) ∧
    (∀ (m : GgufMetadata) (pfx s : String) (v : Nat),
      m.get "general.context_length" = some (.string s) →
      m.get_u64 (pfx ++ "context_length") = .ok v →
      resolveContextLength m pfx = .ok v) := by
  constructor
  · intro m pfx s v h1 h2
    have hmis : m.get_u64 "general.vocab_size" =
        .error (.invalidMetadataValueType "unknown" "u64") := by
      simp [GgufMetadata.get_u64, GgufMetadata.get_required, h1,
        Except.bind, GgufValue.as_u64]
    simp [resolveVocabSize, hmis, h2]
  · intro m pfx s v h1 h2
    have hmis : m.get_u64 "general.context_length" =
        .error (.invalidMetadataValueType "unknown" "u64") := by
      simp [GgufMetadata.get_u64, GgufMetadata.get_required, h1,
        Except.bind, GgufValue.as_u64]
    simp [resolveContextLength, hmis, h2]

/-- Instantiation of `fallback_on_type_mismatch` at a concrete store
holding a string under the general key and a u64 under the prefixed
key. -/
theorem fallback_on_type_mismatch_witness :
    resolveVocabSize
      ⟨[("general.vocab_size", .string "oops"),
        ("llama.vocab_size", .uint64 32000)]⟩ "llama." = .ok 32000 ∧
    resolveContextLength
      ⟨[("general.context_length", .string "oops"),
        ("llama.context_length", .uint64 4096)]⟩ "llama." = .ok 4096 :=
  ⟨fallback_on_type_mismatch.1
      ⟨[("general.vocab_size", .string "oops"),
        ("llama.vocab_size", .uint64 32000)]⟩ "llama." "oops" 32000 rfl rfl,
   fallback_on_type_mismatch.2
      ⟨[("general.context_length", .string "oops"),
        ("llama.context_length", .uint64 4096)]⟩ "llama." "oops" 4096 rfl rfl⟩

/-! ## C8: layer_number -/

/-- When `ds` contains no dot, the first dot of `ds ++ '.' :: rest` sits
exactly at position `ds.length`. -/
theorem findSub_append_dot (ds rest : List Char) (h : '.' ∉ ds) :
    findSub (ds ++ '.' :: rest) ['.'] = some ds.length := by
  induction ds with
  | nil => simp [findSub, List.isPrefixOf]
  | cons d t ih =>
    have hd : ('.' : Char) ≠ d := fun hc => h (by simp [hc.symm])
    have ht : '.' ∉ t := fun hc => h (List.mem_cons_of_mem _ hc)
    simp [findSub, List.isPrefixOf, hd, ih ht]

/-- One successful scan of `layerTry`: if the pattern has length 7, its
first occurrence ends right before a dot-free digit block `ds` followed
by a dot, `layerTry` parses exactly `ds`. -/
theorem layerTry_eq_parse (cs pre ds rest pat : List Char)
    (hlen : pat.length = 7)
    (hcs : cs = pre ++ pat ++ (ds ++ '.' :: rest))
    (hfind : findSub cs pat = some pre.length)
    (hdot : '.' ∉ ds) :
    layerTry cs pat = parseU32 ds := by
  have hdrop : cs.drop (pre.length + 7) = ds ++ '.' :: rest := by
    subst hcs
    exact List.drop_left' (by simp [hlen])
  simp only [layerTry, hfind, hdrop, findSub_append_dot ds rest hdot,
    List.take_left]

/-- C8: `layer_number` returns `N` for names matching
`<pre>layers.<ds>.<rest>` (the first `layers.` occurrence, `ds` parsing
as a u32), likewise for `blocks.` when the `layers.` branch yields
nothing; it returns absent when neither substring occurs; scanning
`layers.` first means that occurrence wins even when `blocks.` appears
earlier in the name, and a failed `layers.` parse falls through to
`blocks.`. -/
theorem layer_number_characterization :
    (∀ (t : TensorInfo) (pre ds rest : List Char) (n : Nat),
      t.name.data = pre ++ ['l', 'a', 'y', 'e', 'r', 's', '.'] ++
        (ds ++ '.' :: rest) →
      findSub t.name.data ['l', 'a', 'y', 'e', 'r', 's', '.'] =
        some pre.length →
      '.' ∉ ds → parseU32 ds = some n →
      t.layer_number = some n) ∧
    (∀ (t : TensorInfo) (pre ds rest : List Char) (n : Nat),
      t.name.data = pre ++ ['b', 'l', 'o', 'c', 'k', 's', '.'] ++
        (ds ++ '.' :: rest) →
      layerTry t.name.data ['l', 'a', 'y', 'e', 'r', 's', '.'] = none →
      findSub t.name.data ['b', 'l', 'o', 'c', 'k', 's', '.'] =
        some pre.length →
      '.' ∉ ds → parseU32 ds = some n →
      t.layer_number = some n) ∧
    (∀ t : TensorInfo,
      findSub t.name.data ['l', 'a', 'y', 'e', 'r', 's', '.'] = none →
      findSub t.name.data ['b', 'l', 'o', 'c', 'k', 's', '.'] = none →
      t.layer_number = none) ∧
    TensorInfo.layer_number ⟨"blocks.5.layers.3.w", [], .f32, 0⟩ = some 3 ∧
    TensorInfo.layer_number ⟨"layers.x.w", [], .f32, 0⟩ = none ∧
    TensorInfo.layer_number ⟨"layers.x.blocks.2.y", [], .f32, 0⟩ = some 2 := by
  refine ⟨?_, ?_, ?_, by decide, by decide, by decide⟩
  · intro t pre ds rest n hname hfind hdot hparse
    have hl := layerTry_eq_parse t.name.data pre ds rest
      ['l', 'a', 'y', 'e', 'r', 's', '.'] rfl hname hfind hdot
    simp only [TensorInfo.layer_number, hl, hparse]
  · intro t pre ds rest n hname hnone hfind hdot hparse
    have hb := layerTry_eq_parse t.name.data pre ds rest
      ['b', 'l', 'o', 'c', 'k', 's', '.'] rfl hname hfind hdot
    simp only [TensorInfo.layer_number, hnone, hb, hparse]
  · intro t h1 h2
    simp only [TensorInfo.layer_number, layerTry, h1, h2]

/-- Instantiation of `layer_number_characterization` at a concrete name
following the `layers.<N>.` convention. -/
theorem layer_number_characterization_witness :
    TensorInfo.layer_number ⟨"model.layers.12.attn.weight", [], .f32, 0⟩ =
      some 12 :=
  layer_number_characterization.1
    ⟨"model.layers.12.attn.weight", [], .f32, 0⟩
    ['m', 'o', 'd', 'e', 'l', '.'] ['1', '2']
    ['a', 't', 't', 'n', '.', 'w', 'e', 'i', 'g', 'h', 't'] 12
    (by decide) (by decide) (by decide) (by decide)

/-! ## C7: quantization_types -/

/-- Removing consecutive duplicates preserves membership. -/
theorem mem_dedupConsec {α : Type} [DecidableEq α] (x : α) :
    ∀ l : List α, x ∈ dedupConsec l ↔ x ∈ l := by
  intro l
  induction l with
  | nil => simp [dedupConsec]
  | cons a t ih =>
    cases t with
    | nil => simp [dedupConsec]
    | cons b r =>
      simp only [dedupConsec]
      split_ifs with hab
      · rw [ih]
        subst hab
        simp [List.mem_cons]
      · simp only [List.mem_cons] at ih ⊢
        rw [ih]

/-- On a code-sorted list, removing consecutive duplicates yields a
strictly code-increasing chain. -/
theorem chain_dedupConsec :
    ∀ l : List QuantizationType,
      l.Pairwise (fun a b => a.code ≤ b.code) →
      (dedupConsec l).Chain' (fun a b => a.code < b.code) := by
  intro l
  induction l with
  | nil => intro _; simp [dedupConsec]
  | cons a t ih =>
    cases t with
    | nil => intro _; simp [dedupConsec]
    | cons b r =>
      intro hp
      simp only [dedupConsec]
      split_ifs with hab
      · exact ih hp.of_cons
      · rw [List.chain'_cons']
        refine ⟨?_, ih hp.of_cons⟩
        intro y hy
        have hym : y ∈ b :: r :=
          (mem_dedupConsec y (b :: r)).mp (List.mem_of_mem_head? hy)
        have hle : a.code ≤ y.code := (List.pairwise_cons.mp hp).1 y hym
        rcases eq_or_ne a y with rfl | hne
        · rcases List.mem_cons.mp hym with rfl | har
          · exact absurd rfl hab
          · have h1 : a.code ≤ b.code :=
              (List.pairwise_cons.mp hp).1 b (List.mem_cons_self ..)
            have h2 : b.code ≤ a.code :=
              (List.pairwise_cons.mp hp.of_cons).1 a har
            exact absurd
              (QuantizationType.code_injective (Nat.le_antisymm h1 h2)) hab
        · exact Nat.lt_of_le_of_ne hle
            (fun hc => hne (QuantizationType.code_injective hc))

/-- C7: `quantization_types()` lists the codes appearing among the file's
tensors with every duplicate removed, in strictly increasing order of
numeric code; a code is in the result exactly when some tensor uses it. -/
theorem quantization_types_sorted_dedup :
    ∀ f : GgufFile,
      (f.quantization_types).Chain' (fun a b => a.code < b.code) ∧
      ∀ q : QuantizationType,
        q ∈ f.quantization_types ↔
          ∃ t ∈ f.tensors, t.quantization_type = q := by
  intro f
  haveI : IsTotal QuantizationType (fun a b => a.code ≤ b.code) :=
    ⟨fun a b => Nat.le_total a.code b.code⟩
  haveI : IsTrans QuantizationType (fun a b => a.code ≤ b.code) :=
    ⟨fun _ _ _ => Nat.le_trans⟩
  have hs : (List.insertionSort (fun a b => a.code ≤ b.code)
      (f.tensors.map (fun t => t.quantization_type))).Pairwise
      (fun a b => a.code ≤ b.code) :=
    List.sorted_insertionSort _ _
  constructor
  · exact chain_dedupConsec _ hs
  · intro q
    rw [GgufFile.quantization_types, mem_dedupConsec,
      (List.perm_insertionSort (fun a b => a.code ≤ b.code)
        (f.tensors.map (fun t => t.quantization_type))).mem_iff]
    simp [List.mem_map]

/-! ## C4: array decoding -/

/-- Monadic bind on a successful `Except` runs the continuation. -/
theorem exceptBind_ok {ε α β : Type} (a : α) (f : α → Except ε β) :
    ((Except.ok a : Except ε α) >>= f) = f a := rfl

/-- Monadic bind on a failed `Except` keeps the error. -/
theorem exceptBind_err {ε α β : Type} (e : ε) (f : α → Except ε β) :
    ((Except.error e : Except ε α) >>= f) = .error e := rfl

/-- A successful `readBytes` returns the first `n` bytes and the rest. -/
theorem readBytes_ok (n : Nat) (bs b r : List Nat)
    (h : readBytes n bs = .ok (b, r)) :
    n ≤ bs.length ∧ b = bs.take n ∧ r = bs.drop n := by
  unfold readBytes at h
  split at h
  · simp only [Except.ok.injEq, Prod.mk.injEq] at h
    exact ⟨by assumption, h.1.symm, h.2.symm⟩
  · exact Except.noConfusion h

/-- A successful element loop returns exactly the requested number of
elements. -/
theorem readElemsGo_length (rv : List Nat → Except GgufError
    (GgufValue × List Nat)) :
    ∀ (len : Nat) (bs : List Nat) (out : List GgufValue) (bs' : List Nat),
      readElemsGo rv len bs = .ok (out, bs') → out.length = len := by
  intro len
  induction len with
  | zero =>
    intro bs out bs' h
    simp only [readElemsGo, Except.ok.injEq, Prod.mk.injEq] at h
    rw [← h.1]
    rfl
  | succ L ih =>
    intro bs out bs' h
    simp only [readElemsGo] at h
    rcases hrv : rv bs with e | ⟨v, r⟩ <;>
      rw [hrv] at h <;>
      simp only [exceptBind_ok, exceptBind_err] at h
    · exact Except.noConfusion h
    rcases hgo : readElemsGo rv L r with e | ⟨vs, r2⟩ <;>
      rw [hgo] at h <;>
      simp only [exceptBind_ok, exceptBind_err] at h
    · exact Except.noConfusion h
    simp only [Except.ok.injEq, Prod.mk.injEq] at h
    rw [← h.1]
    simp [ih r vs r2 hgo]

/-- C4: decoding with the array tag reads a 4-byte little-endian
element-type tag (which must be a valid tag), then an 8-byte
little-endian element count, then decodes exactly that many elements
recursively with the element tag: any success yields an array value
whose length equals the declared count.  The two concrete conjuncts
check the flat example (element type u32, length 3, payload 7, 8, 9)
and the one-level-deeper nested example. -/
theorem array_decode_characterization :
    (∀ (bs : List Nat) (v : GgufValue) (rest : List Nat),
      GgufValue.readV .array bs = .ok (v, rest) →
      12 ≤ bs.length ∧
      (∃ et, GgufValueType.ofU32 (leBytes (bs.take 4)) = .ok et) ∧
      ∃ vs, v = .array vs ∧ vs.length = leBytes ((bs.drop 4).take 8)) ∧
    GgufValue.readV .array
      ([4, 0, 0, 0] ++ [3, 0, 0, 0, 0, 0, 0, 0] ++
        [7, 0, 0, 0] ++ [8, 0, 0, 0] ++ [9, 0, 0, 0]) =
      .ok (.array [.uint32 7, .uint32 8, .uint32 9], []) ∧
    GgufValue.readV .array
      ([9, 0, 0, 0] ++ [2, 0, 0, 0, 0, 0, 0, 0] ++
        ([4, 0, 0, 0] ++ [2, 0, 0, 0, 0, 0, 0, 0] ++
          [7, 0, 0, 0] ++ [8, 0, 0, 0]) ++
        ([4, 0, 0, 0] ++ [1, 0, 0, 0, 0, 0, 0, 0] ++ [9, 0, 0, 0])) =
      .ok (.array [.array [.uint32 7, .uint32 8], .array [.uint32 9]],
        []) := by
  refine ⟨?_, rfl, rfl⟩
  intro bs v rest h
  simp only [GgufValue.readV, readValueF] at h
  rcases hb4 : readBytes 4 bs with e | ⟨tb, r⟩ <;>
    rw [hb4] at h <;> simp only [exceptBind_ok, exceptBind_err] at h
  · exact Except.noConfusion h
  obtain ⟨hlen4, rfl, rfl⟩ := readBytes_ok 4 bs tb r hb4
  rcases het : GgufValueType.ofU32 (leBytes (bs.take 4)) with e | et <;>
    rw [het] at h <;> simp only [exceptBind_ok, exceptBind_err] at h
  · exact Except.noConfusion h
  rcases hb8 : readBytes 8 (bs.drop 4) with e | ⟨lb, r2⟩ <;>
    rw [hb8] at h <;> simp only [exceptBind_ok, exceptBind_err] at h
  · exact Except.noConfusion h
  obtain ⟨hlen8, rfl, rfl⟩ := readBytes_ok 8 (bs.drop 4) lb r2 hb8
  rcases hel : readElemsGo (readValueF bs.length et)
      (leBytes ((bs.drop 4).take 8)) ((bs.drop 4).drop 8)
      with e | ⟨elems, r3⟩ <;>
    rw [hel] at h <;> simp only [exceptBind_ok, exceptBind_err] at h
  · exact Except.noConfusion h
  simp only [Except.ok.injEq, Prod.mk.injEq] at h
  refine ⟨?_, ⟨et, rfl⟩, elems, h.1.symm, ?_⟩
  · have : 8 ≤ bs.length - 4 := by simpa using hlen8
    omega
  · exact readElemsGo_length _ _ _ _ _ hel

/-- Instantiation of `array_decode_characterization` at the concrete flat
u32 array stream. -/
theorem array_decode_characterization_witness :
    12 ≤ ([4, 0, 0, 0] ++ [3, 0, 0, 0, 0, 0, 0, 0] ++
        [7, 0, 0, 0] ++ [8, 0, 0, 0] ++ [9, 0, 0, 0] : List Nat).length ∧
    (∃ et, GgufValueType.ofU32 (leBytes (([4, 0, 0, 0] ++
        [3, 0, 0, 0, 0, 0, 0, 0] ++ [7, 0, 0, 0] ++ [8, 0, 0, 0] ++
        [9, 0, 0, 0] : List Nat).take 4)) = .ok et) ∧
    ∃ vs, (GgufValue.array [.uint32 7, .uint32 8, .uint32 9]) = .array vs ∧
      vs.length = leBytes ((([4, 0, 0, 0] ++ [3, 0, 0, 0, 0, 0, 0, 0] ++
        [7, 0, 0, 0] ++ [8, 0, 0, 0] ++
        [9, 0, 0, 0] : List Nat).drop 4).take 8) :=
  array_decode_characterization.1
    ([4, 0, 0, 0] ++ [3, 0, 0, 0, 0, 0, 0, 0] ++
      [7, 0, 0, 0] ++ [8, 0, 0, 0] ++ [9, 0, 0, 0])
    (.array [.uint32 7, .uint32 8, .uint32 9]) [] rfl

/-! ## C6: size_bytes -/

/-- Integers below `2^53` are exactly representable: `rnd53` fixes them. -/
theorem rnd53_of_lt (k : Nat) (h : k < 2 ^ 53) : rnd53 k = k := by
  unfold rnd53
  rw [if_pos h]

/-- Every bits-per-weight table entry is positive (in sixteenths). -/
theorem bpw16_pos (q : QuantizationType) : 1 ≤ q.bpw16 := by
  cases q <;> decide

/-- `bpw16` is sixteen times the exact bits-per-weight value. -/
theorem bpw16_eq_bits (q : QuantizationType) :
    (q.bpw16 : ℚ) = 16 * q.bits_per_weight := by
  cases q <;> norm_num [QuantizationType.bpw16, QuantizationType.bits_per_weight]

/-- Ceiling division of a natural by 128, as natural-number arithmetic. -/
theorem toNat_ceil_div128 (m : Nat) :
    Int.toNat ⌈(m : ℚ) / 128⌉ = (m + 127) / 128 := by
  have h1 : ((m : ℚ) / 128) = -(((-(m : ℤ) : ℤ) : ℚ) / ((128 : ℕ) : ℚ)) := by
    push_cast
    ring
  rw [h1, Int.ceil_neg, Rat.floor_intCast_div_natCast]
  omega

/-- C6 (amended: restricted to tensors whose element count times
`16 × bits_per_weight` stays below `2^53`, where the double-precision
computation of the source is exact; for larger counts the `f64`
rounding in `size_bytes` deviates from the exact value, see
`size_bytes_f64_rounding_counterexample`): `size_bytes()` equals the
product of the dimension extents (0 when the dimension list is empty)
times `bits_per_weight()`, divided by 8 and rounded up to the next whole
byte; a tensor with empty dimensions has size 0, and dimensions `[2, 2]`
with code Q4_0 give 3 bytes. -/
theorem size_bytes_exact :
    (∀ t : TensorInfo,
      (t.dimensions.foldl (· * ·) 1) * t.quantization_type.bpw16 < 2 ^ 53 →
      t.size_bytes = if t.dimensions = [] then 0
        else Int.toNat ⌈(((t.dimensions.foldl (· * ·) 1 : Nat) : ℚ) *
          t.quantization_type.bits_per_weight) / 8⌉) ∧
    TensorInfo.size_bytes ⟨"t", [], .q4_0, 0⟩ = 0 ∧
    TensorInfo.size_bytes ⟨"t", [2, 2], .q4_0, 0⟩ = 3 := by
  refine ⟨?_, rfl, by decide⟩
  intro t h
  by_cases hd : t.dimensions = []
  · simp [TensorInfo.size_bytes, hd]
  · simp only [TensorInfo.size_bytes, if_neg hd]
    set P := t.dimensions.foldl (· * ·) 1 with hP
    set p := t.quantization_type.bpw16 with hp
    have hp1 : 1 ≤ p := bpw16_pos _
    have hP53 : P < 2 ^ 53 :=
      Nat.lt_of_le_of_lt (Nat.le_mul_of_pos_right _ (by omega)) h
    have hmod : P % 2 ^ 64 = P := Nat.mod_eq_of_lt (by omega)
    rw [hmod, rnd53_of_lt P hP53, rnd53_of_lt (P * p) h]
    have hmin : (P * p + 127) / 128 ≤ 2 ^ 64 - 1 := by
      have := Nat.div_le_self (P * p + 127) 128
      omega
    rw [min_eq_left hmin]
    have hbits : t.quantization_type.bits_per_weight = (p : ℚ) / 16 := by
      rw [hp, bpw16_eq_bits]
      ring
    rw [hbits]
    have hq : ((P : ℚ) * ((p : ℚ) / 16)) / 8 = ((P * p : ℕ) : ℚ) / 128 := by
      push_cast
      ring
    rw [hq, toNat_ceil_div128]

/-- Counterexample to C6 as stated for every tensor: at a single
dimension of `2^53 + 1` elements with code F32, the `f64` arithmetic of
`size_bytes` rounds the element count to `2^53` and returns `2^55`,
while the exact product-times-bits-over-8, rounded up, is `2^55 + 4`. -/
theorem size_bytes_f64_rounding_counterexample :
    TensorInfo.size_bytes ⟨"t", [2 ^ 53 + 1], .f32, 0⟩ = 2 ^ 55 ∧
    Int.toNat ⌈((((((2 ^ 53 + 1 : Nat) :: ([] : List Nat)).foldl
        (· * ·) 1 : Nat)) : ℚ) *
      QuantizationType.bits_per_weight .f32) / 8⌉ = 2 ^ 55 + 4 ∧
    (2 ^ 55 : Nat) ≠ 2 ^ 55 + 4 := by
  refine ⟨by decide, ?_, by norm_num⟩
  have hq : ((((((2 ^ 53 + 1 : Nat) :: ([] : List Nat)).foldl
        (· * ·) 1 : Nat)) : ℚ) *
      QuantizationType.bits_per_weight .f32) / 8 = ((2 ^ 55 + 4 : Nat) : ℚ) := by
    norm_num [QuantizationType.bits_per_weight]
  rw [hq, Int.ceil_natCast]
  simp

/-- Instantiation of `size_bytes_exact` at the `[2, 2]` Q4_0 tensor. -/
theorem size_bytes_exact_witness :
    (⟨"t", [2, 2], .q4_0, 0⟩ : TensorInfo).size_bytes =
      if (⟨"t", [2, 2], .q4_0, 0⟩ : TensorInfo).dimensions = [] then 0
      else Int.toNat
        ⌈((((⟨"t", [2, 2], .q4_0, 0⟩ : TensorInfo).dimensions.foldl
            (· * ·) 1 : Nat) : ℚ) *
          (⟨"t", [2, 2], .q4_0,
            0⟩ : TensorInfo).quantization_type.bits_per_weight) / 8⌉ :=
  size_bytes_exact.1 ⟨"t", [2, 2], .q4_0, 0⟩ (by decide)

/-- Instantiation of `quantization_types_sorted_dedup` at a concrete file
with duplicate and unsorted codes. -/
theorem quantization_types_sorted_dedup_witness :
    (GgufFile.quantization_types
      ⟨⟨ggufMagic, 3, 0, 0⟩, ⟨[]⟩,
        [⟨"a", [], .q8_0, 0⟩, ⟨"b", [], .f16, 0⟩,
         ⟨"c", [], .q8_0, 0⟩, ⟨"d", [], .f32, 0⟩]⟩).Chain'
      (fun a b => a.code < b.code) :=
  (quantization_types_sorted_dedup
    ⟨⟨ggufMagic, 3, 0, 0⟩, ⟨[]⟩,
      [⟨"a", [], .q8_0, 0⟩, ⟨"b", [], .f16, 0⟩,
       ⟨"c", [], .q8_0, 0⟩, ⟨"d", [], .f32, 0⟩]⟩).1
